import Mathlib

/-!
Shallow embedding of `src/compositor/meta-shaped-texture.c` (muffin's shaped
texture actor): the shape-mask rasterizer, the mipmap staleness policy, the
damage/redraw decision, the clipped-paint batching loop, and the overlay /
obscured / flattened-image entry points, together with theorems checking the
specification's statements about them.
-/

namespace Muffin

/-- Embeds `cairo_rectangle_int_t`: an integer rectangle given by its
top-left corner and its width and height. -/
structure RectInt where
  x : Int
  y : Int
  width : Int
  height : Int
deriving DecidableEq, Repr

/-- The set of integer points covered by a rectangle: the half-open box
`[x, x + width) × [y, y + height)`. -/
def RectInt.contains (r : RectInt) (px py : Int) : Prop :=
  r.x ≤ px ∧ px < r.x + r.width ∧ r.y ≤ py ∧ py < r.y + r.height

instance (r : RectInt) (px py : Int) : Decidable (r.contains px py) := by
  unfold RectInt.contains
  exact inferInstance

/-- Embeds `gdk_rectangle_intersect` (and the per-rectangle clipping done by
`cairo_region_intersect_rectangle`): `some` of the intersection rectangle when
the intersection is nonempty, `none` when the rectangles do not intersect. -/
def rectIntersect (a b : RectInt) : Option RectInt :=
  if min (a.x + a.width) (b.x + b.width) > max a.x b.x ∧
      min (a.y + a.height) (b.y + b.height) > max a.y b.y then
    some ⟨max a.x b.x, max a.y b.y,
          min (a.x + a.width) (b.x + b.width) - max a.x b.x,
          min (a.y + a.height) (b.y + b.height) - max a.y b.y⟩
  else
    none

/-- A `cairo_region_t` modelled as the list of its rectangles (cairo stores a
region as a list of nonempty rectangles; the region denotes their union). -/
abbrev Region := List RectInt

/-- The set of points of a region: union of its rectangles. -/
def Region.containsPt (u : Region) (px py : Int) : Prop :=
  ∃ r ∈ u, r.contains px py

instance (u : Region) (px py : Int) : Decidable (u.containsPt px py) := by
  unfold Region.containsPt
  exact inferInstance

/-- Embeds `cairo_region_is_empty`: a region is empty when it holds no
rectangles. -/
def cairo_region_is_empty (u : Region) : Bool := u.isEmpty

/-- Embeds `cairo_region_intersect_rectangle`: clip every rectangle of the
region to the given rectangle, dropping the ones whose clipped form is
empty. -/
def cairo_region_intersect_rectangle (u : Region) (c : RectInt) : Region :=
  u.filterMap (fun r => rectIntersect r c)

/-- Embeds `cairo_region_get_extents`: the bounding rectangle of the region
(`(0,0,0,0)` for an empty region). -/
def cairo_region_get_extents (u : Region) : RectInt :=
  match u with
  | [] => ⟨0, 0, 0, 0⟩
  | r :: rs =>
    let x1 := (rs.map RectInt.x).foldl min r.x
    let y1 := (rs.map RectInt.y).foldl min r.y
    let x2 := (rs.map (fun t => t.x + t.width)).foldl max (r.x + r.width)
    let y2 := (rs.map (fun t => t.y + t.height)).foldl max (r.y + r.height)
    ⟨x1, y1, x2 - x1, y2 - y1⟩

/-- Embeds glib's `CLAMP (v, low, high)` macro:
`((v) > (high)) ? (high) : (((v) < (low)) ? (low) : (v))`. -/
def CLAMP (v low high : Int) : Int :=
  if v > high then high else if v < low then low else v

/-- Membership in a half-open span `[x1, x2) × [y1, y2)`. -/
def spanContains (x1 x2 y1 y2 px py : Int) : Prop :=
  x1 ≤ px ∧ px < x2 ∧ y1 ≤ py ∧ py < y2

instance (x1 x2 y1 y2 px py : Int) : Decidable (spanContains x1 x2 y1 y2 px py) := by
  unfold spanContains
  exact inferInstance

/-- The effect of the `memset` row loop in `meta_shaped_texture_ensure_mask`
on the mask bytes, viewed as a pixel function: writes 255 on
`[x1, x2) × [y1, y2)` and leaves every other pixel unchanged. -/
def fillSpan (bmp : Int → Int → Nat) (x1 x2 y1 y2 : Int) : Int → Int → Nat :=
  fun px py => if spanContains x1 x2 y1 y2 px py then 255 else bmp px py

/-- The clamped fill span that the loop body of
`meta_shaped_texture_ensure_mask` computes for a shape rectangle:
`x1 = CLAMP (rect.x, 0, tex_width - 1)`, `x2 = CLAMP (rect.x + rect.width, x1,
tex_width)`, and likewise for y. -/
def clampedSpanContains (w h : Int) (r : RectInt) (px py : Int) : Prop :=
  spanContains (CLAMP r.x 0 (w - 1))
               (CLAMP (r.x + r.width) (CLAMP r.x 0 (w - 1)) w)
               (CLAMP r.y 0 (h - 1))
               (CLAMP (r.y + r.height) (CLAMP r.y 0 (h - 1)) h)
               px py

instance (w h : Int) (r : RectInt) (px py : Int) :
    Decidable (clampedSpanContains w h r px py) := by
  unfold clampedSpanContains
  exact inferInstance

/-- Loop body of the shape-rectangle fill in
`meta_shaped_texture_ensure_mask`: clamp the rectangle's span and fill it
with 255. -/
def applyShapeRect (w h : Int) (bmp : Int → Int → Nat) (r : RectInt) :
    Int → Int → Nat :=
  fillSpan bmp (CLAMP r.x 0 (w - 1))
               (CLAMP (r.x + r.width) (CLAMP r.x 0 (w - 1)) w)
               (CLAMP r.y 0 (h - 1))
               (CLAMP (r.y + r.height) (CLAMP r.y 0 (h - 1)) h)

/-- Pixel contents of the A8 mask bitmap built by
`meta_shaped_texture_ensure_mask` for texture size `w × h` when the overlay
region and overlay path are absent (`install_overlay_path` returns
immediately): start from zero-initialized data (`g_malloc0`) and fill each
shape rectangle's clamped span with 255, in order. -/
def ensureMaskBitmap (w h : Int) (shape : Region) : Int → Int → Nat :=
  shape.foldl (applyShapeRect w h) (fun _ _ => 0)

/-- Coverage in the sense of claim C1: the point lies in `[0,w) × [0,h)` and
in some rectangle of the shape region (equivalently, in some rectangle of the
region clamped to the bounds). -/
def coveredClamped (w h : Int) (shape : Region) (px py : Int) : Prop :=
  0 ≤ px ∧ px < w ∧ 0 ≤ py ∧ py < h ∧ shape.containsPt px py

instance (w h : Int) (shape : Region) (px py : Int) :
    Decidable (coveredClamped w h shape px py) := by
  unfold coveredClamped
  exact inferInstance

/-- Embeds `MAX_MIPMAPPING_FPS`. -/
def MAX_MIPMAPPING_FPS : Int := 5

/-- Embeds `MIN_MIPMAP_AGE_USEC = G_USEC_PER_SEC / MAX_MIPMAPPING_FPS`. -/
def MIN_MIPMAP_AGE_USEC : Int := 1000000 / MAX_MIPMAPPING_FPS

/-- Embeds `MIN_FAST_UPDATES_BEFORE_UNMIPMAP`. -/
def MIN_FAST_UPDATES_BEFORE_UNMIPMAP : Nat := 20

/-- The invalidation-timeline fields of `MetaShapedTexturePrivate` consumed
and mutated by the mipmap logic: `create_mipmaps`, `last_invalidation`,
`prev_invalidation` (monotonic microsecond timestamps, 0 meaning that no
invalidation was ever recorded) and `fast_updates`. -/
structure MipTiming where
  create_mipmaps : Bool
  last_invalidation : Int
  prev_invalidation : Int
  fast_updates : Nat
deriving DecidableEq, Repr

/-- The timing state after `meta_shaped_texture_init` (the GObject private
data is zero-initialized; `create_mipmaps` is set to TRUE). -/
def initMipTiming : MipTiming := ⟨true, 0, 0, 0⟩

/-- Which image the paint path draws from. -/
inductive PaintSource
  | mipPyramid
  | rawSurface
deriving DecidableEq, Repr

/-- The mipmap decision guard of `meta_shaped_texture_paint`:
`priv->create_mipmaps && priv->last_invalidation` and then
`age >= MIN_MIPMAP_AGE_USEC || priv->fast_updates <
MIN_FAST_UPDATES_BEFORE_UNMIPMAP` with `age = now - priv->last_invalidation`. -/
def shouldUseMipmap (st : MipTiming) (now : Int) : Bool :=
  if st.create_mipmaps = true ∧ st.last_invalidation ≠ 0 then
    if now - st.last_invalidation ≥ MIN_MIPMAP_AGE_USEC ∨
        st.fast_updates < MIN_FAST_UPDATES_BEFORE_UNMIPMAP then
      true
    else
      false
  else
    false

/-- Paint-source selection of `meta_shaped_texture_paint`: `paint_tex` starts
NULL, is set to the texture tower's paint texture under the mipmap guard, and
otherwise falls back to the raw `priv->texture`. -/
def paintSourceSelect (st : MipTiming) (now : Int) : PaintSource :=
  if st.create_mipmaps = true ∧ st.last_invalidation ≠ 0 then
    if now - st.last_invalidation ≥ MIN_MIPMAP_AGE_USEC ∨
        st.fast_updates < MIN_FAST_UPDATES_BEFORE_UNMIPMAP then
      PaintSource.mipPyramid
    else
      PaintSource.rawSurface
  else
    PaintSource.rawSurface

/-- The invalidation-timing block of `meta_shaped_texture_update_area`:
shift `last_invalidation` into `prev_invalidation`, stamp
`last_invalidation = now`, and when a previous update exists classify the
interval as fast (`< MIN_MIPMAP_AGE_USEC`) or slow, resetting or
saturating-incrementing `fast_updates` accordingly. -/
def recordUpdate (st : MipTiming) (now : Int) : MipTiming :=
  let st1 : MipTiming :=
    { st with prev_invalidation := st.last_invalidation, last_invalidation := now }
  if st1.prev_invalidation ≠ 0 then
    if st1.last_invalidation - st1.prev_invalidation < MIN_MIPMAP_AGE_USEC then
      if st1.fast_updates < MIN_FAST_UPDATES_BEFORE_UNMIPMAP then
        { st1 with fast_updates := st1.fast_updates + 1 }
      else
        st1
    else
      { st1 with fast_updates := 0 }
  else
    st1

/-- Outcome of the damage decision: whether a redraw was queued and, if so,
with which clip rectangle. -/
structure RedrawDecision where
  queued : Bool
  clip : Option RectInt
deriving DecidableEq, Repr

/-- The damage decision of `meta_shaped_texture_update_area` (the block
reached once a texture is bound): with no unobscured region, queue a redraw
clipped to the damage rectangle; with an empty unobscured region, or an empty
intersection with it, queue nothing; otherwise queue a redraw clipped to the
bounding extents of the intersection. The returned boolean is the function's
return value. -/
def update_area_damage (rect : RectInt) (unobscured : Option Region) :
    RedrawDecision :=
  match unobscured with
  | some u =>
    if cairo_region_is_empty u then
      ⟨false, none⟩
    else
      let intersection := cairo_region_intersect_rectangle u rect
      if cairo_region_is_empty intersection then
        ⟨false, none⟩
      else
        ⟨true, some (cairo_region_get_extents intersection)⟩
  | none => ⟨true, some rect⟩

/-- Embeds `MAX_RECTS`, the clip-batching budget of
`meta_shaped_texture_paint`. -/
def MAX_RECTS : Nat := 16

/-- One quadruple of normalized texture coordinates, as stored into the
`coords` array (`float` in the source, modelled exactly with rationals). -/
structure TexCoords where
  u1 : Rat
  v1 : Rat
  u2 : Rat
  v2 : Rat
deriving DecidableEq, Repr

/-- One emitted `cogl_rectangle_with_multitexture_coords` call: the
destination rectangle and the texture coordinates for layer 0 (base image)
and layer 1 (mask). -/
structure ClipDraw where
  dest : RectInt
  layer0 : TexCoords
  layer1 : TexCoords
deriving DecidableEq, Repr

/-- What the paint path draws: either the full-repaint fallback (one quad
covering the whole allocation) or the batched list of clipped draws. -/
inductive PaintDraws
  | fullRepaint
  | clipped (draws : List ClipDraw)
deriving DecidableEq, Repr

/-- Loop body of the clip-batching loop in `meta_shaped_texture_paint`:
intersect the clip rectangle with `tex_rect`, skip it when the intersection
is empty, and otherwise emit the intersection as destination with
`coords[0..3] = rect edges divided by the allocation extent` and
`coords[4..7]` copied from `coords[0..3]`. -/
def emitClipRect (texRect : RectInt) (allocW allocH : Rat) (r : RectInt) :
    Option ClipDraw :=
  match rectIntersect texRect r with
  | none => none
  | some rect =>
    let c : TexCoords :=
      ⟨(rect.x : Rat) / allocW,
       (rect.y : Rat) / allocH,
       ((rect.x + rect.width : Int) : Rat) / allocW,
       ((rect.y + rect.height : Int) : Rat) / allocH⟩
    some ⟨rect, c, c⟩

/-- The clipped-paint batching step of `meta_shaped_texture_paint`: with no
clip region, or with more than `MAX_RECTS` clip rectangles, fall through to
the single full `cogl_rectangle`; otherwise emit one multitexture rectangle
per clip rectangle surviving intersection with
`tex_rect = (0, 0, tex_width, tex_height)`. -/
def clipPaintBatch (clip : Option Region) (texW texH : Int)
    (allocW allocH : Rat) : PaintDraws :=
  match clip with
  | none => PaintDraws.fullRepaint
  | some rects =>
    if rects.length ≤ MAX_RECTS then
      PaintDraws.clipped (rects.filterMap (emitClipRect ⟨0, 0, texW, texH⟩ allocW allocH))
    else
      PaintDraws.fullRepaint

/-- Embeds `cairo_path_t` as an opaque handle (no refcounting; identified by
an id for the ownership bookkeeping). -/
structure CairoPath where
  pathId : Nat
deriving DecidableEq, Repr

/-- The fields of `MetaShapedTexturePrivate` touched by
`meta_shaped_texture_set_overlay_path`: the stored overlay region, the stored
overlay path, and the cached mask texture (a handle; `none` = no cached
mask). -/
structure StexOverlayState where
  overlay_region : Option Region
  overlay_path : Option CairoPath
  mask_texture : Option Nat
deriving DecidableEq, Repr

/-- Embeds cairo's `cairo_region_reference`, whose first action is
`if (region == NULL || CAIRO_REGION_IS_ERROR (region)) return NULL;` — a NULL
region is returned unharmed, never dereferenced. -/
def cairo_region_reference (r : Option Region) : Option Region :=
  match r with
  | none => none
  | some reg => some reg

/-- Embeds `meta_shaped_texture_dirty_mask`: drop the cached mask texture. -/
def dirty_mask (st : StexOverlayState) : StexOverlayState :=
  { st with mask_texture := none }

/-- Result of the overlay mutator: the new state plus the regions and paths
released (`cairo_region_destroy` / `cairo_path_destroy`) by the call. -/
structure SetOverlayOutcome where
  state : StexOverlayState
  freed_regions : List Region
  freed_paths : List CairoPath
deriving DecidableEq, Repr

/-- Embeds `meta_shaped_texture_set_overlay_path`: destroy and clear any
previously stored overlay region and overlay path, store a reference to the
new region (`cairo_region_reference`, NULL-safe) and take ownership of the
new path, then dirty the mask. -/
def set_overlay_path (st : StexOverlayState) (overlay_region : Option Region)
    (overlay_path : Option CairoPath) : SetOverlayOutcome :=
  let freedR := match st.overlay_region with | some r => [r] | none => []
  let freedP := match st.overlay_path with | some p => [p] | none => []
  let st1 : StexOverlayState := { st with overlay_region := none, overlay_path := none }
  let st2 : StexOverlayState :=
    { st1 with overlay_region := cairo_region_reference overlay_region,
               overlay_path := overlay_path }
  ⟨dirty_mask st2, freedR, freedP⟩

/-- Embeds `effective_unobscured_region`: NULL when the actor has mapped
clones, the stored unobscured region otherwise. -/
def effective_unobscured_region (has_mapped_clones : Bool)
    (unobscured : Option Region) : Option Region :=
  if has_mapped_clones then none else unobscured

/-- Embeds `meta_shaped_texture_is_obscured`: emptiness of the effective
unobscured region when it exists, FALSE otherwise. -/
def meta_shaped_texture_is_obscured (has_mapped_clones : Bool)
    (unobscured : Option Region) : Bool :=
  match effective_unobscured_region has_mapped_clones unobscured with
  | some r => cairo_region_is_empty r
  | none => false

/-- Observable outcome of `meta_shaped_texture_get_image`: the clip argument
as left after in-place clamping, and the dimensions of the returned cairo
surface. -/
structure GetImageOutcome where
  clip_out : Option RectInt
  surface_w : Int
  surface_h : Int
deriving DecidableEq, Repr

/-- Embeds `meta_shaped_texture_get_image`: NULL when no texture is bound;
with a clip, clamp it in place to `(0, 0, tex_width, tex_height)` via
`gdk_rectangle_intersect` and return NULL when the intersection is empty;
otherwise return a surface sized to the (clipped) texture rectangle. The
texture is modelled by its dimensions. -/
def meta_shaped_texture_get_image (texture : Option (Int × Int))
    (clip : Option RectInt) : Option GetImageOutcome :=
  match texture with
  | none => none
  | some (tw, th) =>
    let texture_rect : RectInt := ⟨0, 0, tw, th⟩
    match clip with
    | some c =>
      match rectIntersect texture_rect c with
      | none => none
      | some c2 => some ⟨some c2, c2.width, c2.height⟩
    | none => some ⟨none, tw, th⟩

theorem rectIntersect_some_contains (a b c : RectInt) (h : rectIntersect a b = some c)
    (px py : Int) : c.contains px py ↔ a.contains px py ∧ b.contains px py := by
  unfold rectIntersect at h
  split at h
  · rename_i hcond
    injection h with h
    subst h
    unfold RectInt.contains
    dsimp
    omega
  · cases h

theorem rectIntersect_eq_none_iff (a b : RectInt) :
    rectIntersect a b = none ↔
      ∀ px py : Int, ¬ (a.contains px py ∧ b.contains px py) := by
  constructor
  · intro h px py hc
    unfold rectIntersect at h
    split at h
    · cases h
    · rename_i hcond
      unfold RectInt.contains at hc
      omega
  · intro h
    unfold rectIntersect
    split
    · rename_i hcond
      exfalso
      refine h (max a.x b.x) (max a.y b.y) ⟨?_, ?_⟩ <;>
        · unfold RectInt.contains
          omega
    · rfl

theorem region_intersect_rectangle_containsPt (u : Region) (c : RectInt) (px py : Int) :
    (cairo_region_intersect_rectangle u c).containsPt px py ↔
      u.containsPt px py ∧ c.contains px py := by
  unfold cairo_region_intersect_rectangle Region.containsPt
  constructor
  · rintro ⟨rr, hrr, hc⟩
    rw [List.mem_filterMap] at hrr
    obtain ⟨r, hr, hsome⟩ := hrr
    have hiff := rectIntersect_some_contains r c rr hsome px py
    exact ⟨⟨r, hr, (hiff.mp hc).1⟩, (hiff.mp hc).2⟩
  · rintro ⟨⟨r, hr, hrc⟩, hcc⟩
    cases hsome : rectIntersect r c with
    | none =>
      exact absurd ⟨hrc, hcc⟩ ((rectIntersect_eq_none_iff r c).mp hsome px py)
    | some rr =>
      exact ⟨rr, List.mem_filterMap.mpr ⟨r, hr, hsome⟩,
        (rectIntersect_some_contains r c rr hsome px py).mpr ⟨hrc, hcc⟩⟩

theorem region_intersect_rectangle_eq_nil_iff (u : Region) (c : RectInt) :
    cairo_region_intersect_rectangle u c = [] ↔
      ∀ px py : Int, ¬ (u.containsPt px py ∧ c.contains px py) := by
  unfold cairo_region_intersect_rectangle
  rw [List.filterMap_eq_nil_iff]
  constructor
  · rintro h px py ⟨⟨r, hr, hrc⟩, hcc⟩
    exact (rectIntersect_eq_none_iff r c).mp (h r hr) px py ⟨hrc, hcc⟩
  · intro h r hr
    refine (rectIntersect_eq_none_iff r c).mpr ?_
    intro px py ⟨hrc, hcc⟩
    exact h px py ⟨⟨r, hr, hrc⟩, hcc⟩

theorem foldl_min_le_init (l : List Int) (a : Int) : l.foldl min a ≤ a := by
  induction l generalizing a with
  | nil => simp
  | cons x xs ih =>
    rw [List.foldl_cons]
    exact le_trans (ih (min a x)) (min_le_left a x)

theorem foldl_min_le_mem (l : List Int) (a b : Int) (hb : b ∈ l) : l.foldl min a ≤ b := by
  induction l generalizing a with
  | nil => cases hb
  | cons x xs ih =>
    rw [List.foldl_cons]
    rcases List.mem_cons.mp hb with h | h
    · subst h
      exact le_trans (foldl_min_le_init xs (min a b)) (min_le_right a b)
    · exact ih (min a x) h

theorem le_foldl_max_init (l : List Int) (a : Int) : a ≤ l.foldl max a := by
  induction l generalizing a with
  | nil => simp
  | cons x xs ih =>
    rw [List.foldl_cons]
    exact le_trans (le_max_left a x) (ih (max a x))

theorem mem_le_foldl_max (l : List Int) (a b : Int) (hb : b ∈ l) : b ≤ l.foldl max a := by
  induction l generalizing a with
  | nil => cases hb
  | cons x xs ih =>
    rw [List.foldl_cons]
    rcases List.mem_cons.mp hb with h | h
    · subst h
      exact le_trans (le_max_right a b) (le_foldl_max_init xs (max a b))
    · exact ih (max a x) h

theorem extents_contains (u : Region) (r : RectInt) (hr : r ∈ u) (px py : Int)
    (hp : r.contains px py) : (cairo_region_get_extents u).contains px py := by
  match u with
  | [] => cases hr
  | r0 :: rs =>
    have hx1 : (rs.map RectInt.x).foldl min r0.x ≤ r.x := by
      rcases List.mem_cons.mp hr with h | h
      · subst h
        exact foldl_min_le_init _ _
      · exact foldl_min_le_mem _ _ _ (List.mem_map.mpr ⟨r, h, rfl⟩)
    have hy1 : (rs.map RectInt.y).foldl min r0.y ≤ r.y := by
      rcases List.mem_cons.mp hr with h | h
      · subst h
        exact foldl_min_le_init _ _
      · exact foldl_min_le_mem _ _ _ (List.mem_map.mpr ⟨r, h, rfl⟩)
    have hx2 : r.x + r.width ≤
        (rs.map (fun t => t.x + t.width)).foldl max (r0.x + r0.width) := by
      rcases List.mem_cons.mp hr with h | h
      · subst h
        exact le_foldl_max_init _ _
      · exact mem_le_foldl_max _ _ _ (List.mem_map.mpr ⟨r, h, rfl⟩)
    have hy2 : r.y + r.height ≤
        (rs.map (fun t => t.y + t.height)).foldl max (r0.y + r0.height) := by
      rcases List.mem_cons.mp hr with h | h
      · subst h
        exact le_foldl_max_init _ _
      · exact mem_le_foldl_max _ _ _ (List.mem_map.mpr ⟨r, h, rfl⟩)
    unfold cairo_region_get_extents RectInt.contains
    unfold RectInt.contains at hp
    dsimp
    omega

theorem applyShapeRect_apply (w h : Int) (bmp : Int → Int → Nat) (r : RectInt)
    (px py : Int) :
    applyShapeRect w h bmp r px py =
      if clampedSpanContains w h r px py then 255 else bmp px py := rfl

theorem foldl_applyShapeRect (w h : Int) (shape : Region) (bmp : Int → Int → Nat)
    (px py : Int) :
    shape.foldl (applyShapeRect w h) bmp px py =
      if ∃ r ∈ shape, clampedSpanContains w h r px py then 255 else bmp px py := by
  induction shape generalizing bmp with
  | nil => simp
  | cons a rs ih =>
    rw [List.foldl_cons, ih]
    by_cases ha : clampedSpanContains w h a px py <;>
      by_cases hrs : ∃ r ∈ rs, clampedSpanContains w h r px py <;>
        simp [ha, hrs, applyShapeRect_apply]

/-- Claim C1, counterexample: the mask rasterizer is claimed to leave every
pixel not covered by the (bounds-clamped) shape region at 0, with a fully
out-of-bounds rectangle contributing nothing. For a 2×2 texture and the shape
rectangle `(5, 0, 1, 1)` — entirely right of the texture — the loop clamps
`x1` to `tex_width - 1 = 1` and `x2` to `tex_width = 2` and paints the pixel
`(1, 0)` with 255 although no rectangle of the region covers it. -/
theorem mask_fill_out_of_bounds_rect_leaks :
    ensureMaskBitmap 2 2 [⟨5, 0, 1, 1⟩] 1 0 = 255 ∧
      ¬ coveredClamped 2 2 [⟨5, 0, 1, 1⟩] 1 0 := by
  decide

/-- Claim C1, amended: the mask built with overlay absent is 255 exactly on
the union of the clamped fill spans of the shape rectangles — where a
rectangle's span is `[CLAMP (x, 0, w-1), CLAMP (x + width, x1, w)) ×
[CLAMP (y, 0, h-1), CLAMP (y + height, y1, h))` — and 0 everywhere else;
every point actually covered by the region inside `[0,w) × [0,h)` is still
255, so the only deviation from the original claim is the one-pixel edge
strip painted for rectangles clamped from beyond the right or bottom edge. -/
theorem mask_fill_matches_clamped_spans (w h : Int) (shape : Region) (px py : Int) :
    (ensureMaskBitmap w h shape px py =
      if ∃ r ∈ shape, clampedSpanContains w h r px py then 255 else 0) ∧
    (coveredClamped w h shape px py → ensureMaskBitmap w h shape px py = 255) := by
  constructor
  · exact foldl_applyShapeRect w h shape (fun _ _ => 0) px py
  · rintro ⟨hx0, hxw, hy0, hyh, r, hr, hrc⟩
    unfold ensureMaskBitmap
    rw [foldl_applyShapeRect w h shape (fun _ _ => 0) px py]
    rw [if_pos]
    refine ⟨r, hr, ?_⟩
    unfold RectInt.contains at hrc
    unfold clampedSpanContains spanContains CLAMP
    split_ifs <;> omega

/-- Witness for `mask_fill_matches_clamped_spans` at a concrete input. -/
theorem mask_fill_matches_clamped_spans_witness :
    (ensureMaskBitmap 3 3 [⟨0, 0, 2, 2⟩] 1 1 =
      if ∃ r ∈ [(⟨0, 0, 2, 2⟩ : RectInt)], clampedSpanContains 3 3 r 1 1 then 255 else 0) ∧
    (coveredClamped 3 3 [⟨0, 0, 2, 2⟩] 1 1 → ensureMaskBitmap 3 3 [⟨0, 0, 2, 2⟩] 1 1 = 255) :=
  mask_fill_matches_clamped_spans 3 3 [⟨0, 0, 2, 2⟩] 1 1

/-- Claim C2: the paint-time mipmap decision is false when mipmapping is
disabled or no invalidation was ever recorded; otherwise it is true exactly
when `now - last_invalidation ≥ MIN_MIPMAP_AGE_USEC` or
`fast_updates < MIN_FAST_UPDATES_BEFORE_UNMIPMAP`; and the paint source is
the mip pyramid exactly when the decision is true, the raw surface exactly
when it is false. -/
theorem should_use_mipmap_selects_paint_source (st : MipTiming) (now : Int) :
    (shouldUseMipmap st now = true ↔
      st.create_mipmaps = true ∧ st.last_invalidation ≠ 0 ∧
        (now - st.last_invalidation ≥ MIN_MIPMAP_AGE_USEC ∨
         st.fast_updates < MIN_FAST_UPDATES_BEFORE_UNMIPMAP)) ∧
    (paintSourceSelect st now = PaintSource.mipPyramid ↔ shouldUseMipmap st now = true) ∧
    (paintSourceSelect st now = PaintSource.rawSurface ↔ shouldUseMipmap st now = false) := by
  unfold shouldUseMipmap paintSourceSelect
  split_ifs with h1 h2 <;> simp_all

/-- Witness for `should_use_mipmap_selects_paint_source` at a concrete input. -/
theorem should_use_mipmap_selects_paint_source_witness :
    (shouldUseMipmap ⟨true, 100, 0, 0⟩ 500100 = true ↔
      (⟨true, 100, 0, 0⟩ : MipTiming).create_mipmaps = true ∧
        (⟨true, 100, 0, 0⟩ : MipTiming).last_invalidation ≠ 0 ∧
        (500100 - (⟨true, 100, 0, 0⟩ : MipTiming).last_invalidation ≥ MIN_MIPMAP_AGE_USEC ∨
         (⟨true, 100, 0, 0⟩ : MipTiming).fast_updates < MIN_FAST_UPDATES_BEFORE_UNMIPMAP)) ∧
    (paintSourceSelect ⟨true, 100, 0, 0⟩ 500100 = PaintSource.mipPyramid ↔
      shouldUseMipmap ⟨true, 100, 0, 0⟩ 500100 = true) ∧
    (paintSourceSelect ⟨true, 100, 0, 0⟩ 500100 = PaintSource.rawSurface ↔
      shouldUseMipmap ⟨true, 100, 0, 0⟩ 500100 = false) :=
  should_use_mipmap_selects_paint_source ⟨true, 100, 0, 0⟩ 500100

/-- Claim C3: the timing block of `meta_shaped_texture_update_area` shifts
`last_invalidation` into `prev_invalidation` and stamps `last_invalidation =
now`; when a previous update exists it resets `fast_updates` to 0 for a slow
interval (`≥ MIN_MIPMAP_AGE_USEC`) and otherwise increments it saturating at
`MIN_FAST_UPDATES_BEFORE_UNMIPMAP`; the bound `fast_updates ≤
MIN_FAST_UPDATES_BEFORE_UNMIPMAP` holds initially and is preserved. -/
theorem record_update_shifts_and_saturates (st : MipTiming) (now : Int)
    (hst : st.fast_updates ≤ MIN_FAST_UPDATES_BEFORE_UNMIPMAP) :
    (recordUpdate st now).prev_invalidation = st.last_invalidation ∧
    (recordUpdate st now).last_invalidation = now ∧
    (st.last_invalidation = 0 → (recordUpdate st now).fast_updates = st.fast_updates) ∧
    (st.last_invalidation ≠ 0 →
      (now - st.last_invalidation ≥ MIN_MIPMAP_AGE_USEC →
        (recordUpdate st now).fast_updates = 0) ∧
      (now - st.last_invalidation < MIN_MIPMAP_AGE_USEC →
        (recordUpdate st now).fast_updates =
          min (st.fast_updates + 1) MIN_FAST_UPDATES_BEFORE_UNMIPMAP)) ∧
    (recordUpdate st now).fast_updates ≤ MIN_FAST_UPDATES_BEFORE_UNMIPMAP ∧
    initMipTiming.fast_updates ≤ MIN_FAST_UPDATES_BEFORE_UNMIPMAP := by
  unfold recordUpdate initMipTiming
  dsimp only
  split_ifs with h1 h2 h3 <;> simp_all <;> omega

/-- Witness for `record_update_shifts_and_saturates` at a concrete input:
nineteen fast updates recorded, a twentieth fast one arrives. -/
theorem record_update_shifts_and_saturates_witness :
    (recordUpdate ⟨true, 100, 50, 19⟩ 150).prev_invalidation =
      (⟨true, 100, 50, 19⟩ : MipTiming).last_invalidation ∧
    (recordUpdate ⟨true, 100, 50, 19⟩ 150).last_invalidation = 150 ∧
    ((⟨true, 100, 50, 19⟩ : MipTiming).last_invalidation = 0 →
      (recordUpdate ⟨true, 100, 50, 19⟩ 150).fast_updates =
        (⟨true, 100, 50, 19⟩ : MipTiming).fast_updates) ∧
    ((⟨true, 100, 50, 19⟩ : MipTiming).last_invalidation ≠ 0 →
      (150 - (⟨true, 100, 50, 19⟩ : MipTiming).last_invalidation ≥ MIN_MIPMAP_AGE_USEC →
        (recordUpdate ⟨true, 100, 50, 19⟩ 150).fast_updates = 0) ∧
      (150 - (⟨true, 100, 50, 19⟩ : MipTiming).last_invalidation < MIN_MIPMAP_AGE_USEC →
        (recordUpdate ⟨true, 100, 50, 19⟩ 150).fast_updates =
          min ((⟨true, 100, 50, 19⟩ : MipTiming).fast_updates + 1)
            MIN_FAST_UPDATES_BEFORE_UNMIPMAP)) ∧
    (recordUpdate ⟨true, 100, 50, 19⟩ 150).fast_updates ≤
      MIN_FAST_UPDATES_BEFORE_UNMIPMAP ∧
    initMipTiming.fast_updates ≤ MIN_FAST_UPDATES_BEFORE_UNMIPMAP :=
  record_update_shifts_and_saturates ⟨true, 100, 50, 19⟩ 150 (by decide)

/-- Claim C4: with no unobscured region the damage decision queues a redraw
clipped exactly to the damage rectangle and reports true; with an empty
unobscured region, or one whose intersection with the damage rectangle is
empty, it queues nothing and reports false; otherwise it queues a redraw
clipped to the bounding extents of the intersection (a rectangle containing
every common point) and reports true. -/
theorem update_area_damage_decision (rect : RectInt) (u : Region) :
    update_area_damage rect none = ⟨true, some rect⟩ ∧
    (u = [] → update_area_damage rect (some u) = ⟨false, none⟩) ∧
    ((∀ px py : Int, ¬ (u.containsPt px py ∧ rect.contains px py)) →
      update_area_damage rect (some u) = ⟨false, none⟩) ∧
    ((∃ px py : Int, u.containsPt px py ∧ rect.contains px py) →
      update_area_damage rect (some u) =
        ⟨true, some (cairo_region_get_extents (cairo_region_intersect_rectangle u rect))⟩ ∧
      ∀ px py : Int, u.containsPt px py ∧ rect.contains px py →
        (cairo_region_get_extents (cairo_region_intersect_rectangle u rect)).contains
          px py) := by
  refine ⟨rfl, ?_, ?_, ?_⟩
  · intro hu
    subst hu
    rfl
  · intro hemp
    unfold update_area_damage
    dsimp only
    by_cases hu : cairo_region_is_empty u
    · rw [if_pos hu]
    · have hnil : cairo_region_intersect_rectangle u rect = [] :=
        (region_intersect_rectangle_eq_nil_iff u rect).mpr hemp
      rw [if_neg hu, hnil]
      rfl
  · rintro ⟨px, py, hux, hrx⟩
    have hne : cairo_region_intersect_rectangle u rect ≠ [] := by
      intro hnil
      exact (region_intersect_rectangle_eq_nil_iff u rect).mp hnil px py ⟨hux, hrx⟩
    have hune : cairo_region_is_empty u = false := by
      obtain ⟨r, hr, _⟩ := hux
      cases u with
      | nil => cases hr
      | cons a as => rfl
    have hine : cairo_region_is_empty (cairo_region_intersect_rectangle u rect) = false := by
      cases hcase : cairo_region_intersect_rectangle u rect with
      | nil => exact absurd hcase hne
      | cons a as => rfl
    constructor
    · unfold update_area_damage
      dsimp only
      rw [if_neg (by simp [hune]), if_neg (by simp [hine])]
    · intro qx qy hq
      obtain ⟨rr, hrr, hrc⟩ :=
        (region_intersect_rectangle_containsPt u rect qx qy).mpr hq
      exact extents_contains _ rr hrr qx qy hrc

/-- Witness for `update_area_damage_decision` at a concrete input. -/
theorem update_area_damage_decision_witness :
    update_area_damage ⟨0, 0, 4, 4⟩ none = ⟨true, some ⟨0, 0, 4, 4⟩⟩ ∧
    (([(⟨2, 2, 4, 4⟩ : RectInt)] : Region) = [] →
      update_area_damage ⟨0, 0, 4, 4⟩ (some [⟨2, 2, 4, 4⟩]) = ⟨false, none⟩) ∧
    ((∀ px py : Int,
        ¬ (Region.containsPt [⟨2, 2, 4, 4⟩] px py ∧
           RectInt.contains ⟨0, 0, 4, 4⟩ px py)) →
      update_area_damage ⟨0, 0, 4, 4⟩ (some [⟨2, 2, 4, 4⟩]) = ⟨false, none⟩) ∧
    ((∃ px py : Int,
        Region.containsPt [⟨2, 2, 4, 4⟩] px py ∧
          RectInt.contains ⟨0, 0, 4, 4⟩ px py) →
      update_area_damage ⟨0, 0, 4, 4⟩ (some [⟨2, 2, 4, 4⟩]) =
        ⟨true, some (cairo_region_get_extents
          (cairo_region_intersect_rectangle [⟨2, 2, 4, 4⟩] ⟨0, 0, 4, 4⟩))⟩ ∧
      ∀ px py : Int,
        Region.containsPt [⟨2, 2, 4, 4⟩] px py ∧
          RectInt.contains ⟨0, 0, 4, 4⟩ px py →
        (cairo_region_get_extents
          (cairo_region_intersect_rectangle [⟨2, 2, 4, 4⟩] ⟨0, 0, 4, 4⟩)).contains px py) :=
  update_area_damage_decision ⟨0, 0, 4, 4⟩ [⟨2, 2, 4, 4⟩]

theorem emitClipRect_some_dest (texRect : RectInt) (aW aH : Rat) (r : RectInt)
    (d : ClipDraw) (h : emitClipRect texRect aW aH r = some d) :
    rectIntersect texRect r = some d.dest := by
  unfold emitClipRect at h
  cases hri : rectIntersect texRect r with
  | none =>
    rw [hri] at h
    cases h
  | some rect =>
    rw [hri] at h
    dsimp only at h
    injection h with h
    subst h
    rfl

theorem emitClipRect_some_of_intersect (texRect : RectInt) (aW aH : Rat)
    (r rect : RectInt) (h : rectIntersect texRect r = some rect) :
    ∃ d, emitClipRect texRect aW aH r = some d ∧ d.dest = rect := by
  unfold emitClipRect
  rw [h]
  exact ⟨_, rfl, rfl⟩

theorem clipPaintBatch_emitted_contains (rects : Region) (texW texH : Int)
    (allocW allocH : Rat) (d : ClipDraw)
    (hd : d ∈ rects.filterMap (emitClipRect ⟨0, 0, texW, texH⟩ allocW allocH))
    (px py : Int) (hc : d.dest.contains px py) :
    rects.containsPt px py ∧ RectInt.contains ⟨0, 0, texW, texH⟩ px py := by
  rw [List.mem_filterMap] at hd
  obtain ⟨r, hr, hem⟩ := hd
  have hri := emitClipRect_some_dest _ _ _ _ _ hem
  have hiff := rectIntersect_some_contains _ _ _ hri px py
  exact ⟨⟨r, hr, (hiff.mp hc).2⟩, (hiff.mp hc).1⟩

/-- Claim C5: when the clip region holds at most `MAX_RECTS` rectangles the
batching loop emits destination rectangles whose union is exactly the clip
region intersected with the texture rectangle `(0, 0, tex_width,
tex_height)`, and no emitted rectangle has a point outside the clip region or
outside the texture rectangle. -/
theorem clip_batch_union_eq_clip_inter_source (rects : Region) (texW texH : Int)
    (allocW allocH : Rat) (hn : rects.length ≤ MAX_RECTS) :
    ∃ ds, clipPaintBatch (some rects) texW texH allocW allocH = PaintDraws.clipped ds ∧
      (∀ px py : Int,
        (∃ d ∈ ds, d.dest.contains px py) ↔
          rects.containsPt px py ∧ RectInt.contains ⟨0, 0, texW, texH⟩ px py) ∧
      (∀ d ∈ ds, ∀ px py : Int, d.dest.contains px py →
        rects.containsPt px py ∧ RectInt.contains ⟨0, 0, texW, texH⟩ px py) := by
  refine ⟨rects.filterMap (emitClipRect ⟨0, 0, texW, texH⟩ allocW allocH), ?_, ?_, ?_⟩
  · unfold clipPaintBatch
    dsimp only
    rw [if_pos hn]
  · intro px py
    constructor
    · rintro ⟨d, hd, hc⟩
      exact clipPaintBatch_emitted_contains rects texW texH allocW allocH d hd px py hc
    · rintro ⟨⟨r, hr, hrc⟩, htex⟩
      cases hri : rectIntersect ⟨0, 0, texW, texH⟩ r with
      | none =>
        exact absurd ⟨htex, hrc⟩ ((rectIntersect_eq_none_iff _ _).mp hri px py)
      | some rect =>
        obtain ⟨d, hem, hdest⟩ := emitClipRect_some_of_intersect _ allocW allocH _ _ hri
        refine ⟨d, List.mem_filterMap.mpr ⟨r, hr, hem⟩, ?_⟩
        rw [hdest]
        exact (rectIntersect_some_contains _ _ _ hri px py).mpr ⟨htex, hrc⟩
  · intro d hd px py hc
    exact clipPaintBatch_emitted_contains rects texW texH allocW allocH d hd px py hc

/-- Witness for `clip_batch_union_eq_clip_inter_source` at a concrete input. -/
theorem clip_batch_union_eq_clip_inter_source_witness :
    ∃ ds, clipPaintBatch (some [⟨1, 1, 2, 2⟩]) 4 4 4 4 = PaintDraws.clipped ds ∧
      (∀ px py : Int,
        (∃ d ∈ ds, d.dest.contains px py) ↔
          Region.containsPt [⟨1, 1, 2, 2⟩] px py ∧
            RectInt.contains ⟨0, 0, 4, 4⟩ px py) ∧
      (∀ d ∈ ds, ∀ px py : Int, d.dest.contains px py →
        Region.containsPt [⟨1, 1, 2, 2⟩] px py ∧
          RectInt.contains ⟨0, 0, 4, 4⟩ px py) :=
  clip_batch_union_eq_clip_inter_source [⟨1, 1, 2, 2⟩] 4 4 4 4 (by decide)

/-- Claim C6: with more than `MAX_RECTS` clip rectangles the batching step
emits no per-rectangle draws and falls through to the full-repaint quad. -/
theorem clip_batch_over_budget_full_repaint (rects : Region) (texW texH : Int)
    (allocW allocH : Rat) (hn : MAX_RECTS < rects.length) :
    clipPaintBatch (some rects) texW texH allocW allocH = PaintDraws.fullRepaint := by
  unfold clipPaintBatch
  dsimp only
  rw [if_neg (Nat.not_le.mpr hn)]

/-- Witness for `clip_batch_over_budget_full_repaint`: a clip region of 17
rectangles yields the full-repaint fallback. -/
theorem clip_batch_over_budget_full_repaint_witness :
    clipPaintBatch (some ((List.range 17).map (fun i => ⟨(i : Int), 0, 1, 1⟩)))
      100 100 100 100 = PaintDraws.fullRepaint :=
  clip_batch_over_budget_full_repaint _ 100 100 100 100 (by decide)

/-- Claim C7: every draw emitted by the non-fallback batching path carries
texture coordinates equal to its destination rectangle's edges divided by
the allocation extent (the width and height of the quad the full-repaint
fallback paints, i.e. the source rectangle's extent), and the identical
quadruple is used for both texture layers (base image and mask). -/
theorem clip_batch_texcoords_normalized_shared (rects : Region) (texW texH : Int)
    (allocW allocH : Rat) (ds : List ClipDraw)
    (hb : clipPaintBatch (some rects) texW texH allocW allocH = PaintDraws.clipped ds) :
    ∀ d ∈ ds,
      d.layer1 = d.layer0 ∧
      d.layer0 = ⟨(d.dest.x : Rat) / allocW, (d.dest.y : Rat) / allocH,
                  ((d.dest.x + d.dest.width : Int) : Rat) / allocW,
                  ((d.dest.y + d.dest.height : Int) : Rat) / allocH⟩ := by
  intro d hd
  have hds : ds = rects.filterMap (emitClipRect ⟨0, 0, texW, texH⟩ allocW allocH) := by
    unfold clipPaintBatch at hb
    dsimp only at hb
    by_cases hn : rects.length ≤ MAX_RECTS
    · rw [if_pos hn] at hb
      injection hb with hb
      exact hb.symm
    · rw [if_neg hn] at hb
      cases hb
  subst hds
  rw [List.mem_filterMap] at hd
  obtain ⟨r, hr, hem⟩ := hd
  unfold emitClipRect at hem
  cases hri : rectIntersect ⟨0, 0, texW, texH⟩ r with
  | none =>
    rw [hri] at hem
    cases hem
  | some rect =>
    rw [hri] at hem
    dsimp only at hem
    injection hem with hem
    subst hem
    exact ⟨rfl, rfl⟩

/-- Witness for `clip_batch_texcoords_normalized_shared` at a concrete input:
the single draw emitted for clip rectangle `(1,1,2,2)` against a 4×4 texture
and a 4×4 allocation. -/
theorem clip_batch_texcoords_normalized_shared_witness :
    (ClipDraw.mk ⟨1, 1, 2, 2⟩ ⟨1/4, 1/4, 3/4, 3/4⟩ ⟨1/4, 1/4, 3/4, 3/4⟩).layer1 =
      (ClipDraw.mk ⟨1, 1, 2, 2⟩ ⟨1/4, 1/4, 3/4, 3/4⟩ ⟨1/4, 1/4, 3/4, 3/4⟩).layer0 ∧
    (ClipDraw.mk ⟨1, 1, 2, 2⟩ ⟨1/4, 1/4, 3/4, 3/4⟩ ⟨1/4, 1/4, 3/4, 3/4⟩).layer0 =
      ⟨((1 : Int) : Rat) / 4, ((1 : Int) : Rat) / 4,
       ((1 + 2 : Int) : Rat) / 4, ((1 + 2 : Int) : Rat) / 4⟩ :=
  clip_batch_texcoords_normalized_shared [⟨1, 1, 2, 2⟩] 4 4 4 4
    [ClipDraw.mk ⟨1, 1, 2, 2⟩ ⟨1/4, 1/4, 3/4, 3/4⟩ ⟨1/4, 1/4, 3/4, 3/4⟩]
    (by norm_num [clipPaintBatch, MAX_RECTS, emitClipRect, rectIntersect,
      List.filterMap_cons, List.filterMap_nil])
    (ClipDraw.mk ⟨1, 1, 2, 2⟩ ⟨1/4, 1/4, 3/4, 3/4⟩ ⟨1/4, 1/4, 3/4, 3/4⟩)
    (List.mem_singleton.mpr rfl)

/-- Claim C8: calling `meta_shaped_texture_set_overlay_path` with NULL for
both region and path succeeds for every prior state: the previously stored
overlay region and overlay path are freed (exactly those, nothing else), both
fields end cleared, the mask is invalidated, and the NULL-region branch of
`cairo_region_reference` returns NULL without dereferencing anything. -/
theorem set_overlay_path_none_clears_and_dirties (st : StexOverlayState) :
    set_overlay_path st none none =
      ⟨⟨none, none, none⟩, st.overlay_region.toList, st.overlay_path.toList⟩ ∧
    cairo_region_reference none = none := by
  refine ⟨?_, rfl⟩
  obtain ⟨oR, oP, mT⟩ := st
  cases oR <;> cases oP <;> rfl

/-- Witness for `set_overlay_path_none_clears_and_dirties` at a concrete
state holding an overlay region, an overlay path and a cached mask. -/
theorem set_overlay_path_none_clears_and_dirties_witness :
    set_overlay_path ⟨some [⟨0, 0, 3, 3⟩], some ⟨7⟩, some 5⟩ none none =
      ⟨⟨none, none, none⟩,
       (some [(⟨0, 0, 3, 3⟩ : RectInt)]).toList,
       (some (⟨7⟩ : CairoPath)).toList⟩ ∧
    cairo_region_reference none = none :=
  set_overlay_path_none_clears_and_dirties ⟨some [⟨0, 0, 3, 3⟩], some ⟨7⟩, some 5⟩

/-- Claim C9, counterexample: the claim says the query returns true whenever
an unobscured region was supplied and is empty; but when the actor has
mapped clones `effective_unobscured_region` returns NULL, so a supplied,
empty unobscured region still yields false. -/
theorem is_obscured_mapped_clones_counterexample :
    cairo_region_is_empty ([] : Region) = true ∧
    meta_shaped_texture_is_obscured true (some ([] : Region)) = false := by
  decide

/-- Claim C9, amended: `meta_shaped_texture_is_obscured` returns true exactly
when the actor has no mapped clones, an unobscured region was supplied, and
that region is empty; with mapped clones, or with no supplied region, it
returns false. -/
theorem is_obscured_iff_no_clones_and_supplied_empty (has_mapped_clones : Bool)
    (unobscured : Option Region) :
    meta_shaped_texture_is_obscured has_mapped_clones unobscured = true ↔
      has_mapped_clones = false ∧
        ∃ u, unobscured = some u ∧ cairo_region_is_empty u = true := by
  cases has_mapped_clones <;> cases unobscured <;>
    simp [meta_shaped_texture_is_obscured, effective_unobscured_region]

/-- Witness for `is_obscured_iff_no_clones_and_supplied_empty` at a concrete
input. -/
theorem is_obscured_iff_no_clones_and_supplied_empty_witness :
    meta_shaped_texture_is_obscured false (some ([] : Region)) = true ↔
      false = false ∧
        ∃ u, (some ([] : Region)) = some u ∧ cairo_region_is_empty u = true :=
  is_obscured_iff_no_clones_and_supplied_empty false (some [])

theorem rectIntersect_some_corner (a b c : RectInt) (h : rectIntersect a b = some c) :
    c.contains c.x c.y := by
  unfold rectIntersect at h
  split at h
  · rename_i hcond
    injection h with h
    subst h
    unfold RectInt.contains
    dsimp
    omega
  · cases h

/-- Claim C10: `meta_shaped_texture_get_image` returns NULL exactly when no
texture is bound or a supplied clip does not meet the texture rectangle;
otherwise it returns a surface whose dimensions are those of the (clipped)
texture rectangle, the clip argument having been clamped in place to the
texture bounds (the returned clip is pointwise the intersection of the
supplied clip with the texture rectangle). -/
theorem get_image_none_iff_and_dims (texture : Option (Int × Int))
    (clip : Option RectInt) :
    (meta_shaped_texture_get_image texture clip = none ↔
      texture = none ∨
        ∃ tw th c, texture = some (tw, th) ∧ clip = some c ∧
          ∀ px py : Int, ¬ (RectInt.contains ⟨0, 0, tw, th⟩ px py ∧
            c.contains px py)) ∧
    (∀ tw th, texture = some (tw, th) → clip = none →
      meta_shaped_texture_get_image texture clip = some ⟨none, tw, th⟩) ∧
    (∀ tw th c out, texture = some (tw, th) → clip = some c →
      meta_shaped_texture_get_image texture clip = some out →
      ∃ c2, out = ⟨some c2, c2.width, c2.height⟩ ∧
        ∀ px py : Int, c2.contains px py ↔
          RectInt.contains ⟨0, 0, tw, th⟩ px py ∧ c.contains px py) := by
  obtain _ | ⟨tw, th⟩ := texture
  · refine ⟨?_, ?_, ?_⟩
    · simp [meta_shaped_texture_get_image]
    · intro tw th h1
      cases h1
    · intro tw th c out h1
      cases h1
  · obtain _ | c := clip
    · refine ⟨?_, ?_, ?_⟩
      · simp [meta_shaped_texture_get_image]
      · intro tw2 th2 h1 _
        injection h1 with h1
        injection h1 with h1a h1b
        subst h1a
        subst h1b
        rfl
      · intro tw2 th2 c out _ h2
        cases h2
    · refine ⟨?_, ?_, ?_⟩
      · unfold meta_shaped_texture_get_image
        dsimp only
        cases hri : rectIntersect ⟨0, 0, tw, th⟩ c with
        | none =>
          simp only [true_iff]
          right
          exact ⟨tw, th, c, rfl, rfl, (rectIntersect_eq_none_iff _ _).mp hri⟩
        | some c2 =>
          simp only [reduceCtorEq, false_iff]
          rintro (h | ⟨tw2, th2, c3, h1, h2, h3⟩)
          · cases h
          · injection h1 with h1
            injection h1 with h1a h1b
            injection h2 with h2
            subst h1a
            subst h1b
            subst h2
            have hcc : c2.contains c2.x c2.y := rectIntersect_some_corner _ _ _ hri
            have := (rectIntersect_some_contains _ _ _ hri c2.x c2.y).mp hcc
            exact h3 c2.x c2.y this
      · intro tw2 th2 _ h2
        cases h2
      · intro tw2 th2 c3 out h1 h2 h3
        injection h1 with h1
        injection h1 with h1a h1b
        injection h2 with h2
        subst h1a
        subst h1b
        subst h2
        unfold meta_shaped_texture_get_image at h3
        dsimp only at h3
        cases hri : rectIntersect ⟨0, 0, tw, th⟩ c with
        | none =>
          rw [hri] at h3
          cases h3
        | some c2 =>
          rw [hri] at h3
          injection h3 with h3
          subst h3
          exact ⟨c2, rfl, fun px py => rectIntersect_some_contains _ _ _ hri px py⟩

/-- Witness for `get_image_none_iff_and_dims` at a concrete input. -/
theorem get_image_none_iff_and_dims_witness :
    (meta_shaped_texture_get_image (some (6, 6)) (some ⟨4, 4, 5, 5⟩) = none ↔
      (some ((6 : Int), (6 : Int))) = none ∨
        ∃ tw th c, (some ((6 : Int), (6 : Int))) = some (tw, th) ∧
          (some (⟨4, 4, 5, 5⟩ : RectInt)) = some c ∧
          ∀ px py : Int, ¬ (RectInt.contains ⟨0, 0, tw, th⟩ px py ∧
            c.contains px py)) ∧
    (∀ tw th, (some ((6 : Int), (6 : Int))) = some (tw, th) →
      (some (⟨4, 4, 5, 5⟩ : RectInt)) = none →
      meta_shaped_texture_get_image (some (6, 6)) (some ⟨4, 4, 5, 5⟩) =
        some ⟨none, tw, th⟩) ∧
    (∀ tw th c out, (some ((6 : Int), (6 : Int))) = some (tw, th) →
      (some (⟨4, 4, 5, 5⟩ : RectInt)) = some c →
      meta_shaped_texture_get_image (some (6, 6)) (some ⟨4, 4, 5, 5⟩) = some out →
      ∃ c2, out = ⟨some c2, c2.width, c2.height⟩ ∧
        ∀ px py : Int, c2.contains px py ↔
          RectInt.contains ⟨0, 0, tw, th⟩ px py ∧ c.contains px py) :=
  get_image_none_iff_and_dims (some (6, 6)) (some ⟨4, 4, 5, 5⟩)

end Muffin
